import Mathlib

/-!
Verification development for a Markdown-fetching resource-cache server
(`src/jina-mcp/server.py`).  The Python source is shallowly embedded:

* `normalize_uri`, `compute_hash`, `fetch_and_store_url`, `read_resource`,
  `list_resources` and `call_tool` are translated directly from the source;
* the global dict `resource_store` becomes explicit state passing over an
  association list with Python-dict insertion semantics;
* `hashlib.sha256(...).hexdigest()` is embedded as a full SHA-256 (FIPS 180-4)
  implementation over `Nat` with explicit reduction modulo `2 ^ 32`;
* Python `urllib.parse.urlparse` is embedded for the scheme/netloc/path/
  query/fragment splitting that the source relies on;
* the network fetch (`fetch_jina_markdown`) is an external effect, so its
  outcome enters the model as an `Except FetchError String` argument;
* the tokenizer (`tiktoken`) is an external library, so `estimate_tokens`
  enters the model as an arbitrary function `String → Nat`;
* a `datetime` value is represented by its ISO-format rendering (a `String`),
  which is the only way the source observes it.
-/

set_option autoImplicit false
set_option maxRecDepth 8192

namespace JinaMCP

/-! ### SHA-256 (FIPS 180-4) over `Nat`, embedding `hashlib.sha256` -/

/-- Reduce to a 32-bit word. -/
def w32 (n : Nat) : Nat := n % 4294967296

/-- Right rotation of a 32-bit word. -/
def rotr (n x : Nat) : Nat := (x >>> n) ||| w32 (x <<< (32 - n))

def bigSigma0 (x : Nat) : Nat := rotr 2 x ^^^ rotr 13 x ^^^ rotr 22 x

def bigSigma1 (x : Nat) : Nat := rotr 6 x ^^^ rotr 11 x ^^^ rotr 25 x

def smallSigma0 (x : Nat) : Nat := rotr 7 x ^^^ rotr 18 x ^^^ (x >>> 3)

def smallSigma1 (x : Nat) : Nat := rotr 17 x ^^^ rotr 19 x ^^^ (x >>> 10)

def chFn (x y z : Nat) : Nat := (x &&& y) ^^^ ((x ^^^ 4294967295) &&& z)

def majFn (x y z : Nat) : Nat := (x &&& y) ^^^ (x &&& z) ^^^ (y &&& z)

/-- The 64 SHA-256 round constants (FIPS 180-4 §4.2.2, in decimal). -/
def sha256K : List Nat :=
  [1116352408, 1899447441, 3049323471, 3921009573, 961987163,
   1508970993, 2453635748, 2870763221, 3624381080, 310598401,
   607225278, 1426881987, 1925078388, 2162078206, 2614888103,
   3248222580, 3835390401, 4022224774, 264347078, 604807628,
   770255983, 1249150122, 1555081692, 1996064986, 2554220882,
   2821834349, 2952996808, 3210313671, 3336571891, 3584528711,
   113926993, 338241895, 666307205, 773529912, 1294757372,
   1396182291, 1695183700, 1986661051, 2177026350, 2456956037,
   2730485921, 2820302411, 3259730800, 3345764771, 3516065817,
   3600352804, 4094571909, 275423344, 430227734, 506948616,
   659060556, 883997877, 958139571, 1322822218, 1537002063,
   1747873779, 1955562222, 2024104815, 2227730452, 2361852424,
   2428436474, 2756734187, 3204031479, 3329325298]

/-- SHA-256 working/chaining state: eight 32-bit words. -/
structure Hash8 where
  a : Nat
  b : Nat
  c : Nat
  d : Nat
  e : Nat
  f : Nat
  g : Nat
  h : Nat
  deriving Repr, DecidableEq

/-- Initial SHA-256 hash value (FIPS 180-4 §5.3.3, in decimal). -/
def sha256H0 : Hash8 :=
  ⟨1779033703, 3144134277, 1013904242, 2773480762,
   1359893119, 2600822924, 528734635, 1541459225⟩

/-- One SHA-256 compression round. -/
def sha256Round (s : Hash8) (k w : Nat) : Hash8 :=
  let t1 := w32 (s.h + bigSigma1 s.e + chFn s.e s.f s.g + k + w)
  let t2 := w32 (bigSigma0 s.a + majFn s.a s.b s.c)
  ⟨w32 (t1 + t2), s.a, s.b, s.c, w32 (s.d + t1), s.e, s.f, s.g⟩

/-- Big-endian assembly of 4-byte groups into 32-bit words. -/
def bytesToWords : List Nat → List Nat
  | b0 :: b1 :: b2 :: b3 :: rest =>
      ((b0 <<< 24) ||| (b1 <<< 16) ||| (b2 <<< 8) ||| b3) :: bytesToWords rest
  | _ => []

/-- Extend the 16-word block to the full message schedule, one word per fuel step. -/
def extendSchedule (w : List Nat) : Nat → List Nat
  | 0 => w
  | fuel + 1 =>
      let i := w.length
      let nw := w32 (smallSigma1 (w.getD (i - 2) 0) + w.getD (i - 7) 0 +
                     smallSigma0 (w.getD (i - 15) 0) + w.getD (i - 16) 0)
      extendSchedule (w ++ [nw]) fuel

/-- The 64-word message schedule of one 512-bit chunk. -/
def messageSchedule (chunk : List Nat) : List Nat :=
  extendSchedule (bytesToWords chunk) 48

/-- Process one 64-byte chunk into the chaining state. -/
def sha256Chunk (h0 : Hash8) (chunk : List Nat) : Hash8 :=
  let s := (sha256K.zip (messageSchedule chunk)).foldl
    (fun s kw => sha256Round s kw.1 kw.2) h0
  ⟨w32 (h0.a + s.a), w32 (h0.b + s.b), w32 (h0.c + s.c), w32 (h0.d + s.d),
   w32 (h0.e + s.e), w32 (h0.f + s.f), w32 (h0.g + s.g), w32 (h0.h + s.h)⟩

/-- Big-endian byte rendering of `n` on `numBytes` bytes. -/
def toBytesBE (numBytes n : Nat) : List Nat :=
  (List.range numBytes).map (fun i => (n >>> (8 * (numBytes - 1 - i))) % 256)

/-- SHA-256 padding: `0x80`, zeros to 56 mod 64, then the 64-bit bit length. -/
def padMessage (msg : List Nat) : List Nat :=
  let len := msg.length
  let zeros := (119 - len % 64) % 64
  msg ++ (128 :: List.replicate zeros 0) ++ toBytesBE 8 (len * 8)

/-- Split into 64-byte chunks (fuel-based recursion so the kernel can evaluate;
one fuel unit is spent per chunk and the padded message is nonempty, so
`l.length` fuel always suffices). -/
def chunks64Aux : Nat → List Nat → List (List Nat)
  | _, [] => []
  | 0, _ => []
  | fuel + 1, l => l.take 64 :: chunks64Aux fuel (l.drop 64)

def chunks64 (l : List Nat) : List (List Nat) := chunks64Aux l.length l

/-- SHA-256 of a byte sequence, as the final chaining state. -/
def sha256Bytes (msg : List Nat) : Hash8 :=
  (chunks64 (padMessage msg)).foldl sha256Chunk sha256H0

/-- Lowercase hexadecimal digit of `n % 16`: code point 48 + m for m < 10
(the decimal digits) and 87 + m for 10 ≤ m < 16 (the letters a–f). -/
def hexDigit (n : Nat) : Char :=
  let m := n % 16
  if m < 10 then Char.ofNat (48 + m) else Char.ofNat (87 + m)

/-- Eight-character lowercase-hex rendering of a 32-bit word. -/
def wordHex (n : Nat) : String :=
  ⟨[hexDigit (n >>> 28), hexDigit (n >>> 24), hexDigit (n >>> 20), hexDigit (n >>> 16),
    hexDigit (n >>> 12), hexDigit (n >>> 8), hexDigit (n >>> 4), hexDigit n]⟩

/-- `hexdigest()` of a SHA-256 state. -/
def sha256Hex (msg : List Nat) : String :=
  let s := sha256Bytes msg
  wordHex s.a ++ wordHex s.b ++ wordHex s.c ++ wordHex s.d ++
  wordHex s.e ++ wordHex s.f ++ wordHex s.g ++ wordHex s.h

/-- UTF-8 encoding of one character (code point), as bytes. -/
def utf8EncodeChar (c : Char) : List Nat :=
  let v := c.toNat
  if v < 128 then [v]
  else if v < 2048 then [192 + v / 64, 128 + v % 64]
  else if v < 65536 then [224 + v / 4096, 128 + (v / 64) % 64, 128 + v % 64]
  else [240 + v / 262144, 128 + (v / 4096) % 64, 128 + (v / 64) % 64, 128 + v % 64]

/-- UTF-8 byte encoding of a string, embedding Python `str.encode("utf-8")`. -/
def utf8Bytes (s : String) : List Nat :=
  s.data.flatMap utf8EncodeChar

/-- Embeds `compute_hash`: `hashlib.sha256(content.encode("utf-8")).hexdigest()`. -/
def compute_hash (content : String) : String :=
  sha256Hex (utf8Bytes content)

/-! ### `urllib.parse.urlparse`, for the components the source uses -/

/-- Python `scheme_chars`: letters, digits, and the three punctuation marks
allowed after the first character of a URL scheme. -/
def isSchemeChar (c : Char) : Bool :=
  ('a' ≤ c && c ≤ 'z') || ('A' ≤ c && c ≤ 'Z') || ('0' ≤ c && c ≤ '9') ||
  c == '+' || c == '-' || c == '.'

def isAsciiAlpha (c : Char) : Bool :=
  ('a' ≤ c && c ≤ 'z') || ('A' ≤ c && c ≤ 'Z')

/-- Split at the first occurrence of `ch`: `some (before, after)` when present. -/
def splitAtFirstChar (ch : Char) : List Char → Option (List Char × List Char)
  | [] => none
  | c :: cs =>
      if c = ch then some ([], cs)
      else match splitAtFirstChar ch cs with
        | none => none
        | some (pre, post) => some (c :: pre, post)

/-- Scheme extraction of `urlsplit`: a colon at a positive index, preceded by an
ASCII letter and scheme characters, splits off the (lowercased) scheme;
otherwise the scheme is empty and the input is left whole. -/
def parseSchemeSplit (cs : List Char) : List Char × List Char :=
  match splitAtFirstChar ':' cs with
  | some (c0 :: pre, post) =>
      if isAsciiAlpha c0 && pre.all isSchemeChar then
        ((c0 :: pre).map Char.toLower, post)
      else ([], cs)
  | _ => ([], cs)

/-- `_splitnetloc`: after a leading `//`, the netloc runs to the first
`/`, `?` or `#`. -/
def isNetlocEnd (c : Char) : Bool := c == '/' || c == '?' || c == '#'

def splitNetloc (cs : List Char) : List Char × List Char :=
  match cs with
  | '/' :: '/' :: rest =>
      (rest.takeWhile (fun c => !isNetlocEnd c), rest.dropWhile (fun c => !isNetlocEnd c))
  | _ => ([], cs)

structure UrlParts where
  scheme : String
  netloc : String
  path : String
  query : String
  fragment : String
  deriving Repr, DecidableEq

/-- Embeds `urllib.parse.urlparse` (scheme, then netloc after `//`, then the
fragment split at the first `#`, then the query split at the first `?`). -/
def urlparse (url : String) : UrlParts :=
  let (sch, rest) := parseSchemeSplit url.data
  let (netloc, rest) := splitNetloc rest
  let (rest, fragment) :=
    match splitAtFirstChar '#' rest with
    | some (pre, post) => (pre, post)
    | none => (rest, [])
  let (path, query) :=
    match splitAtFirstChar '?' rest with
    | some (pre, post) => (pre, post)
    | none => (rest, [])
  ⟨⟨sch⟩, ⟨netloc⟩, ⟨path⟩, ⟨query⟩, ⟨fragment⟩⟩

/-! ### `normalize_uri` -/

/-- Python `s.rstrip("/")`: remove every trailing `'/'`. -/
def rstripSlash (s : String) : String :=
  ⟨(s.data.reverse.dropWhile (fun c => c = '/')).reverse⟩

/-- Python single-character `s.replace(a, b)` as a character map. -/
def replaceChar (a b : Char) (s : String) : String :=
  ⟨s.data.map (fun c => if c = a then b else c)⟩

/-- Embeds `normalize_uri`:
`parsed.path.rstrip("/") or "_"`, then
`(parsed.netloc + safe_path).replace("/", "_").replace(".", "_")`,
prefixed with `jinamd://`. -/
def normalize_uri (url : String) : String :=
  let parsed := urlparse url
  let safe_path := if rstripSlash parsed.path = "" then "_" else rstripSlash parsed.path
  let safe_key := replaceChar '.' '_' (replaceChar '/' '_' (parsed.netloc ++ safe_path))
  "jinamd://" ++ safe_key

/-! ### Data model and the resource store -/

/-- The cached value stored per canonical identifier.  `fetched_at` carries the
`datetime` by its ISO-format rendering, the only form the source observes. -/
structure MarkdownResource where
  markdown : String
  token_count : Nat
  content_hash : String
  fetched_at : String
  deriving Repr, DecidableEq

/-- The ephemeral metadata returned by a fetch. -/
structure MarkdownMeta where
  url : String
  uri : String
  token_count : Nat
  content_hash : String
  fetched_at : String
  has_changed : Bool
  deriving Repr, DecidableEq

/-- `types.TextContent(type="text", text=..., _meta=...)`. -/
structure TextContent where
  type : String
  text : String
  meta : MarkdownMeta
  deriving Repr, DecidableEq

/-- `types.Resource(uri=..., name=..., description=..., mimeType=...)`. -/
structure Resource where
  uri : String
  name : String
  description : String
  mimeType : String
  deriving Repr, DecidableEq

/-- Failure of the Fetch Gateway (`httpx` raise inside `fetch_jina_markdown`):
network failure, non-2xx status, or timeout. -/
inductive FetchError where
  | networkFailure
  | non2xx (status : Nat)
  | timeout
  deriving Repr, DecidableEq

/-- The global dict `resource_store`, as an association list in dict order. -/
abbrev Store := List (String × MarkdownResource)

/-- `resource_store.get(uri)`. -/
def lookupStore (store : Store) (uri : String) : Option MarkdownResource :=
  match store with
  | [] => none
  | (k, v) :: rest => if k = uri then some v else lookupStore rest uri

/-- `resource_store[uri] = value`: a Python dict keeps an existing key in place
and appends a new key at the end. -/
def dictInsert (uri : String) (v : MarkdownResource) : Store → Store
  | [] => [(uri, v)]
  | (k, w) :: rest =>
      if k = uri then (uri, v) :: rest else (k, w) :: dictInsert uri v rest

/-! ### `fetch_and_store_url` -/

/-- Embeds `fetch_and_store_url`.  The network result of `fetch_jina_markdown`
enters as `fetchResult`; an exception there propagates before any store
access, so the store is returned untouched in that case.  `estimate_tokens`
(the tiktoken-backed estimator, an external library) and `now`
(`datetime.utcnow()`, rendered in ISO form) are likewise inputs. -/
def fetch_and_store_url (estimate_tokens : String → Nat)
    (fetchResult : Except FetchError String) (now : String)
    (url : String) (store : Store) :
    Store × Except FetchError (List TextContent) :=
  match fetchResult with
  | .error e => (store, .error e)
  | .ok markdown =>
      let content_hash := compute_hash markdown
      let token_count := estimate_tokens markdown
      let uri := normalize_uri url
      let old := lookupStore store uri
      let has_changed : Bool :=
        match old with
        | some o => o.content_hash != content_hash
        | none => true
      let store' := dictInsert uri ⟨markdown, token_count, content_hash, now⟩ store
      let meta : MarkdownMeta := ⟨url, uri, token_count, content_hash, now, has_changed⟩
      (store', .ok [⟨"text", markdown, meta⟩])

/-! ### `read_resource` and `list_resources` -/

/-- The two `ValueError` raise sites of `read_resource`, which the spec's error
taxonomy names `ValidationError` (unsupported scheme) and `NotFoundError`. -/
inductive ReadError where
  | unsupportedScheme (scheme : String)
  | notFound (uri : String)
  deriving Repr, DecidableEq

/-- Embeds `read_resource`: reject a non-`jinamd` scheme, then a missing key,
otherwise return the stored markdown with the footer appended. -/
def read_resource (store : Store) (uri : String) : Except ReadError String :=
  let scheme := (urlparse uri).scheme
  if scheme ≠ "jinamd" then .error (.unsupportedScheme scheme)
  else
    match lookupStore store uri with
    | none => .error (.notFound uri)
    | some res =>
        .ok (res.markdown ++
          ("\n\n---\n_Estimated tokens_: " ++ toString res.token_count ++
           "\n_Content hash_: `" ++ res.content_hash.take 12 ++
           "...`\n_Fetched at_: " ++ res.fetched_at ++ " UTC"))

/-- Embeds `list_resources`: one `Resource` per store entry, in store order. -/
def list_resources (store : Store) : List Resource :=
  store.map (fun p =>
    ⟨p.1, "Jina Markdown: " ++ p.1,
     "Fetched at " ++ p.2.fetched_at ++ " UTC, ~" ++ toString p.2.token_count ++ " tokens",
     "text/markdown"⟩)

/-! ### `call_tool` -/

/-- The failures `call_tool` can surface: its own `ValueError`s, a pydantic
validation failure from `URLRequest(**arguments)`, or a fetch failure. -/
inductive ToolError where
  | valueError (msg : String)
  | validationError
  | fetchError (e : FetchError)
  deriving Repr, DecidableEq

/-- The `arguments` dict: absent (`None`) or a list of key-value pairs. -/
abbrev ArgDict := List (String × String)

/-- Embeds `call_tool`.  `validate` stands for pydantic `URLRequest`
construction followed by `str(args.url)` (an external library); it runs only
after the two guard checks, and the fetch result is consumed only by
`fetch_and_store_url` after validation succeeds. -/
def call_tool (estimate_tokens : String → Nat)
    (validate : ArgDict → Except ToolError String)
    (fetchResult : Except FetchError String) (now : String)
    (name : String) (arguments : Option ArgDict) (store : Store) :
    Store × Except ToolError (List TextContent) :=
  match arguments with
  | none => (store, .error (.valueError "Missing arguments"))
  | some args =>
      if args.isEmpty then (store, .error (.valueError "Missing arguments"))
      else if name ≠ "fetch_markdown" then
        (store, .error (.valueError ("Unknown tool: " ++ name)))
      else
        match validate args with
        | .error e => (store, .error e)
        | .ok urlStr =>
            match fetch_and_store_url estimate_tokens fetchResult now urlStr store with
            | (store', .error e) => (store', .error (.fetchError e))
            | (store', .ok contents) => (store', .ok contents)

/-! ### The operation machine: sequences of upserts, lists and reads -/

/-- One server operation touching the resource store. -/
inductive Op where
  | upsert (url : String) (fetchResult : Except FetchError String) (now : String)
  | listOp
  | readOp (uri : String)

/-- Store effect of one operation (`list_resources` and `read_resource` only
read the dict). -/
def applyOp (estimate_tokens : String → Nat) (store : Store) : Op → Store
  | .upsert url fr now => (fetch_and_store_url estimate_tokens fr now url store).1
  | .listOp => store
  | .readOp _ => store

/-- Run a sequence of operations from a starting store. -/
def runOps (estimate_tokens : String → Nat) (store : Store) : List Op → Store
  | [] => store
  | op :: ops => runOps estimate_tokens (applyOp estimate_tokens store op) ops

/-! ### Shared lemmas about the store -/

/-- The keys of the store, in dict order. -/
def storeKeys (s : Store) : List String := s.map Prod.fst

theorem lookupStore_dictInsert_self (s : Store) (k : String) (v : MarkdownResource) :
    lookupStore (dictInsert k v s) k = some v := by
  induction s with
  | nil => simp [dictInsert, lookupStore]
  | cons p rest ih =>
      obtain ⟨k', v'⟩ := p
      by_cases h : k' = k <;> simp [dictInsert, lookupStore, h, ih]

theorem lookupStore_dictInsert_ne (s : Store) {k k' : String} (v : MarkdownResource)
    (h : k' ≠ k) : lookupStore (dictInsert k v s) k' = lookupStore s k' := by
  have hne : ¬k = k' := fun hh => h hh.symm
  induction s with
  | nil => simp [dictInsert, lookupStore, hne]
  | cons p rest ih =>
      obtain ⟨k0, v0⟩ := p
      by_cases h0 : k0 = k
      · subst h0
        simp [dictInsert, lookupStore, hne]
      · simp [dictInsert, lookupStore, h0, ih]

theorem mem_dictInsert {p : String × MarkdownResource} {k : String}
    {v : MarkdownResource} {s : Store} (h : p ∈ dictInsert k v s) :
    p = (k, v) ∨ p ∈ s := by
  induction s with
  | nil => simpa [dictInsert] using h
  | cons q rest ih =>
      obtain ⟨k0, v0⟩ := q
      by_cases h0 : k0 = k
      · simp only [dictInsert, if_pos h0, List.mem_cons] at h
        rcases h with h | h
        · exact Or.inl h
        · exact Or.inr (List.mem_cons_of_mem _ h)
      · simp only [dictInsert, if_neg h0, List.mem_cons] at h
        rcases h with h | h
        · exact Or.inr (by simp [h])
        · rcases ih h with h' | h'
          · exact Or.inl h'
          · exact Or.inr (List.mem_cons_of_mem _ h')

theorem storeKeys_dictInsert (s : Store) (k : String) (v : MarkdownResource) :
    storeKeys (dictInsert k v s) =
      if k ∈ storeKeys s then storeKeys s else storeKeys s ++ [k] := by
  induction s with
  | nil => simp [dictInsert, storeKeys]
  | cons p rest ih =>
      obtain ⟨k0, v0⟩ := p
      by_cases h0 : k0 = k
      · subst h0
        simp [dictInsert, storeKeys]
      · have hk0 : ¬k = k0 := fun hh => h0 hh.symm
        simp only [storeKeys, dictInsert, if_neg h0, List.map_cons] at ih ⊢
        rw [ih]
        by_cases hk : k ∈ List.map Prod.fst rest
        · simp [hk]
        · simp [hk, hk0]

theorem storeKeys_nodup_dictInsert {s : Store} (h : (storeKeys s).Nodup)
    (k : String) (v : MarkdownResource) : (storeKeys (dictInsert k v s)).Nodup := by
  rw [storeKeys_dictInsert]
  by_cases hk : k ∈ storeKeys s
  · simpa [hk] using h
  · simp only [hk, if_false]
    rw [List.nodup_append]
    exact ⟨h, List.nodup_singleton _,
      fun a ha ha' => hk ((List.mem_singleton.mp ha') ▸ ha)⟩

theorem count_storeKeys_dictInsert {s : Store} (h : (storeKeys s).Nodup)
    (k : String) (v : MarkdownResource) :
    (storeKeys (dictInsert k v s)).count k = 1 := by
  rw [storeKeys_dictInsert]
  by_cases hk : k ∈ storeKeys s
  · simpa [hk] using List.count_eq_one_of_mem h hk
  · simp [hk, List.count_append, List.count_eq_zero_of_not_mem hk]

/-! ### Shared lemmas about the fingerprint format -/

/-- Lowercase hexadecimal characters. -/
def isLowerHex (c : Char) : Bool :=
  ('0' ≤ c && c ≤ '9') || ('a' ≤ c && c ≤ 'f')

theorem isLowerHex_hexDigit (n : Nat) : isLowerHex (hexDigit n) = true := by
  have hlt : n % 16 < 16 := Nat.mod_lt _ (by decide)
  have hall : ∀ m, m < 16 → isLowerHex
      (if m < 10 then Char.ofNat (48 + m) else Char.ofNat (87 + m)) = true := by
    decide
  simpa [hexDigit] using hall _ hlt

theorem wordHex_length (n : Nat) : (wordHex n).length = 8 := rfl

theorem isLowerHex_of_mem_wordHex {c : Char} {n : Nat} (h : c ∈ (wordHex n).data) :
    isLowerHex c = true := by
  simp only [wordHex, List.mem_cons, List.not_mem_nil, or_false] at h
  rcases h with h | h | h | h | h | h | h | h <;> subst h <;>
    exact isLowerHex_hexDigit _

theorem compute_hash_length (s : String) : (compute_hash s).length = 64 := by
  simp [compute_hash, sha256Hex, String.length_append, wordHex_length]

theorem isLowerHex_of_mem_compute_hash {s : String} {c : Char}
    (h : c ∈ (compute_hash s).data) : isLowerHex c = true := by
  simp only [compute_hash, sha256Hex, String.data_append, List.mem_append] at h
  rcases h with ((((((h | h) | h) | h) | h) | h) | h) | h <;>
    exact isLowerHex_of_mem_wordHex h

/-- FIPS 180-4 test vector: the embedding of `hashlib.sha256` agrees with the
published digest of `"abc"`. -/
theorem compute_hash_abc : compute_hash "abc" =
    "ba7816bf8f01cfea414140de5dae2223b00361a396177a9cb410ff61f20015ad" := by
  decide

/-- FIPS 180-4 test vector: digest of the empty message. -/
theorem compute_hash_empty : compute_hash "" =
    "e3b0c44298fc1c149afbf4c8996fb92427ae41e4649b934ca495991b7852b855" := by
  decide

/-! ### Shared lemmas about canonical identifiers -/

theorem urlparse_scheme_jinamd (k : String) :
    (urlparse ("jinamd://" ++ k)).scheme = "jinamd" := rfl

theorem urlparse_scheme_normalize_uri (url : String) :
    (urlparse (normalize_uri url)).scheme = "jinamd" :=
  urlparse_scheme_jinamd _

/-! ### The spec's reference normalization algorithm, for comparison with
`normalize_uri` -/

/-- The spec's words: "trimming a single trailing path separator". -/
def trimOneTrailingSlash (s : String) : String :=
  if s.data.getLast? = some '/' then ⟨s.data.dropLast⟩ else s

/-- The spec's words: "replace every path-separator character and every literal
dot character in the concatenation with an underscore" (one pass). -/
def replaceSeps (s : String) : String :=
  ⟨s.data.map (fun c => if c = '/' ∨ c = '.' then '_' else c)⟩

/-- The spec's reference normalization, exactly as worded: effective path by
trimming a single trailing separator, placeholder when empty, concatenate,
replace separators and dots, prefix the scheme tag. -/
def normalize_spec_single (url : String) : String :=
  let parsed := urlparse url
  let trimmed := trimOneTrailingSlash parsed.path
  let effective := if trimmed = "" then "_" else trimmed
  "jinamd://" ++ replaceSeps (parsed.netloc ++ effective)

/-- The spec's reference normalization amended at its one divergence from the
code: trimming every trailing path separator instead of a single one. -/
def normalize_spec_trimAll (url : String) : String :=
  let parsed := urlparse url
  let trimmed := rstripSlash parsed.path
  let effective := if trimmed = "" then "_" else trimmed
  "jinamd://" ++ replaceSeps (parsed.netloc ++ effective)

theorem replaceChar_eq_replaceSeps (s : String) :
    replaceChar '.' '_' (replaceChar '/' '_' s) = replaceSeps s := by
  simp only [replaceChar, replaceSeps, List.map_map]
  congr 1
  apply List.map_congr_left
  intro c _
  by_cases h1 : c = '/'
  · simp [h1, Function.comp]
  · by_cases h2 : c = '.' <;> simp [h1, h2, Function.comp]

/-- C3, counterexample: at `"https://example.com/docs//"` the code
(`rstrip("/")`, which removes every trailing slash) yields
`jinamd://example_com_docs`, while the spec's reference algorithm (trim a
single trailing separator) yields `jinamd://example_com_docs_`, so the claim
that they agree on every URL is false. -/
theorem normalize_uri_ne_spec_single :
    normalize_uri "https://example.com/docs//" = "jinamd://example_com_docs" ∧
    normalize_spec_single "https://example.com/docs//" = "jinamd://example_com_docs_" ∧
    normalize_uri "https://example.com/docs//" ≠
      normalize_spec_single "https://example.com/docs//" := by
  refine ⟨by decide, by decide, by decide⟩

/-- C3, amended: for every URL, `normalize_uri` equals the spec's reference
algorithm with the trimming step amended to remove every trailing path
separator (not just one); in particular
`normalize_uri "https://example.com/docs/" = "jinamd://example_com_docs"`. -/
theorem normalize_uri_eq_spec_trimAll :
    (∀ url : String, normalize_uri url = normalize_spec_trimAll url) ∧
    normalize_uri "https://example.com/docs/" = "jinamd://example_com_docs" := by
  constructor
  · intro url
    simp only [normalize_uri, normalize_spec_trimAll, replaceChar_eq_replaceSeps]
  · decide

/-! ### C1, C2: change detection and fetch-failure isolation -/

/-- C1: for every upsert of a URL `u`, the returned `has_changed` flag is
`true` when no entry existed under `normalize(u)` immediately before, and
otherwise equals (prior fingerprint ≠ new fingerprint); in particular the
first upsert of a fresh identifier yields `true`, a second upsert of the same
URL with byte-identical content yields `false`, and a second upsert whose
content has a different fingerprint yields `true`. -/
theorem fetch_and_store_has_changed (est : String → Nat) :
    (∀ url m now store,
      (fetch_and_store_url est (Except.ok m) now url store).2 =
        Except.ok [⟨"text", m,
          ⟨url, normalize_uri url, est m, compute_hash m, now,
           match lookupStore store (normalize_uri url) with
           | none => true
           | some old => old.content_hash != compute_hash m⟩⟩]) ∧
    (∀ url m now store, lookupStore store (normalize_uri url) = none →
      (fetch_and_store_url est (Except.ok m) now url store).2 =
        Except.ok [⟨"text", m,
          ⟨url, normalize_uri url, est m, compute_hash m, now, true⟩⟩]) ∧
    (∀ url m t1 t2 store,
      (fetch_and_store_url est (Except.ok m) t2 url
          (fetch_and_store_url est (Except.ok m) t1 url store).1).2 =
        Except.ok [⟨"text", m,
          ⟨url, normalize_uri url, est m, compute_hash m, t2, false⟩⟩]) ∧
    (∀ url m1 m2 t1 t2 store, compute_hash m1 ≠ compute_hash m2 →
      (fetch_and_store_url est (Except.ok m2) t2 url
          (fetch_and_store_url est (Except.ok m1) t1 url store).1).2 =
        Except.ok [⟨"text", m2,
          ⟨url, normalize_uri url, est m2, compute_hash m2, t2, true⟩⟩]) := by
  refine ⟨fun url m now store => ?_, fun url m now store h => ?_,
    fun url m t1 t2 store => ?_, fun url m1 m2 t1 t2 store h => ?_⟩
  · cases hl : lookupStore store (normalize_uri url) <;>
      simp [fetch_and_store_url, hl]
  · simp [fetch_and_store_url, h]
  · simp [fetch_and_store_url, lookupStore_dictInsert_self, bne_self_eq_false]
  · simp [fetch_and_store_url, lookupStore_dictInsert_self, bne_iff_ne, h]

theorem fetch_and_store_has_changed_witness :
    (fetch_and_store_url (fun s => s.length) (Except.ok "# Hi") "t1"
        "https://example.com/docs/" []).2 =
      Except.ok [⟨"text", "# Hi",
        ⟨"https://example.com/docs/", normalize_uri "https://example.com/docs/",
         "# Hi".length, compute_hash "# Hi", "t1", true⟩⟩] ∧
    (fetch_and_store_url (fun s => s.length) (Except.ok "# Hi") "t2"
        "https://example.com/docs/"
        (fetch_and_store_url (fun s => s.length) (Except.ok "# Hi") "t1"
          "https://example.com/docs/" []).1).2 =
      Except.ok [⟨"text", "# Hi",
        ⟨"https://example.com/docs/", normalize_uri "https://example.com/docs/",
         "# Hi".length, compute_hash "# Hi", "t2", false⟩⟩] ∧
    (fetch_and_store_url (fun s => s.length) (Except.ok "# Hello") "t2"
        "https://example.com/docs/"
        (fetch_and_store_url (fun s => s.length) (Except.ok "# Hi") "t1"
          "https://example.com/docs/" []).1).2 =
      Except.ok [⟨"text", "# Hello",
        ⟨"https://example.com/docs/", normalize_uri "https://example.com/docs/",
         "# Hello".length, compute_hash "# Hello", "t2", true⟩⟩] :=
  ⟨(fetch_and_store_has_changed (fun s => s.length)).2.1
      "https://example.com/docs/" "# Hi" "t1" [] rfl,
   (fetch_and_store_has_changed (fun s => s.length)).2.2.1
      "https://example.com/docs/" "# Hi" "t1" "t2" [],
   (fetch_and_store_has_changed (fun s => s.length)).2.2.2
      "https://example.com/docs/" "# Hi" "# Hello" "t1" "t2" [] (by decide)⟩

/-- C2: when the Fetch Gateway call inside an upsert fails with a
`FetchError`, the store after the call equals the store before it — the entry
under `normalize(u)`, if any, and every other identifier's entry are
unchanged — and the error is surfaced to the caller. -/
theorem fetch_error_leaves_store (est : String → Nat) (e : FetchError)
    (now url : String) (store : Store) :
    (fetch_and_store_url est (Except.error e) now url store).1 = store ∧
    (∀ id, lookupStore (fetch_and_store_url est (Except.error e) now url store).1 id =
      lookupStore store id) ∧
    (fetch_and_store_url est (Except.error e) now url store).2 = Except.error e :=
  ⟨rfl, fun _ => rfl, rfl⟩

/-! ### C8, C9: normalization as a function of host and path, and collisions -/

/-- C8: two URLs with the same host and the same path — in particular URLs
differing only in query string or fragment — normalize to the same canonical
identifier; `normalize_uri` is a deterministic function of host and path only. -/
theorem normalize_uri_host_path_only (u1 u2 : String)
    (hn : (urlparse u1).netloc = (urlparse u2).netloc)
    (hp : (urlparse u1).path = (urlparse u2).path) :
    normalize_uri u1 = normalize_uri u2 := by
  simp only [normalize_uri, hn, hp]

theorem normalize_uri_host_path_only_witness :
    (urlparse "https://example.com/docs?page=1").netloc =
      (urlparse "https://example.com/docs#sec").netloc ∧
    (urlparse "https://example.com/docs?page=1").path =
      (urlparse "https://example.com/docs#sec").path ∧
    normalize_uri "https://example.com/docs?page=1" =
      normalize_uri "https://example.com/docs#sec" :=
  ⟨by decide, by decide,
   normalize_uri_host_path_only "https://example.com/docs?page=1"
     "https://example.com/docs#sec" (by decide) (by decide)⟩

/-- C9: normalization is not injective even on (host, path) pairs:
`https://a.com/b.c`, `https://a.com/b/c` and `https://a.com/b_c` have
distinct paths yet all normalize to `jinamd://a_com_b_c`, and two successive
upserts of two such URLs share one cache entry, the second overwriting the
first's content. -/
theorem normalize_uri_collisions :
    normalize_uri "https://a.com/b.c" = "jinamd://a_com_b_c" ∧
    normalize_uri "https://a.com/b/c" = "jinamd://a_com_b_c" ∧
    normalize_uri "https://a.com/b_c" = "jinamd://a_com_b_c" ∧
    (urlparse "https://a.com/b.c").path ≠ (urlparse "https://a.com/b/c").path ∧
    (urlparse "https://a.com/b.c").path ≠ (urlparse "https://a.com/b_c").path ∧
    (∀ (est : String → Nat) (m1 m2 t1 t2 : String),
      (fetch_and_store_url est (Except.ok m2) t2 "https://a.com/b/c"
          (fetch_and_store_url est (Except.ok m1) t1 "https://a.com/b.c" []).1).1 =
        [("jinamd://a_com_b_c", ⟨m2, est m2, compute_hash m2, t2⟩)]) := by
  have h1 : normalize_uri "https://a.com/b.c" = "jinamd://a_com_b_c" := by decide
  have h2 : normalize_uri "https://a.com/b/c" = "jinamd://a_com_b_c" := by decide
  refine ⟨h1, h2, by decide, by decide, by decide, fun est m1 m2 t1 t2 => ?_⟩
  simp [fetch_and_store_url, h1, h2, dictInsert]

/-! ### C4: replacement, not append -/

/-- C4: after two successful upserts of the same URL the store holds exactly
one entry under `normalize(u)` (the one written by the second upsert),
`list_resources` reports exactly one resource with that identifier, and
`read_resource` on it returns the second upsert's content with the footer. -/
theorem upsert_replaces_entry (est : String → Nat) (url m1 m2 t1 t2 : String)
    (store : Store) (hnodup : (storeKeys store).Nodup) :
    (storeKeys (fetch_and_store_url est (Except.ok m2) t2 url
        (fetch_and_store_url est (Except.ok m1) t1 url store).1).1).count
        (normalize_uri url) = 1 ∧
    lookupStore (fetch_and_store_url est (Except.ok m2) t2 url
        (fetch_and_store_url est (Except.ok m1) t1 url store).1).1
        (normalize_uri url) = some ⟨m2, est m2, compute_hash m2, t2⟩ ∧
    ((list_resources (fetch_and_store_url est (Except.ok m2) t2 url
        (fetch_and_store_url est (Except.ok m1) t1 url store).1).1).filter
        (fun r => r.uri == normalize_uri url)).length = 1 ∧
    read_resource (fetch_and_store_url est (Except.ok m2) t2 url
        (fetch_and_store_url est (Except.ok m1) t1 url store).1).1
        (normalize_uri url) =
      Except.ok (m2 ++
        ("\n\n---\n_Estimated tokens_: " ++ toString (est m2) ++
         "\n_Content hash_: `" ++ (compute_hash m2).take 12 ++
         "...`\n_Fetched at_: " ++ t2 ++ " UTC")) := by
  have hs1 : (fetch_and_store_url est (Except.ok m1) t1 url store).1 =
      dictInsert (normalize_uri url) ⟨m1, est m1, compute_hash m1, t1⟩ store := rfl
  have hs2 : (fetch_and_store_url est (Except.ok m2) t2 url
      (fetch_and_store_url est (Except.ok m1) t1 url store).1).1 =
      dictInsert (normalize_uri url) ⟨m2, est m2, compute_hash m2, t2⟩
        (dictInsert (normalize_uri url) ⟨m1, est m1, compute_hash m1, t1⟩ store) := rfl
  rw [hs2]
  have hnodup1 := storeKeys_nodup_dictInsert hnodup (normalize_uri url)
    (⟨m1, est m1, compute_hash m1, t1⟩ : MarkdownResource)
  refine ⟨count_storeKeys_dictInsert hnodup1 _ _,
    lookupStore_dictInsert_self _ _ _, ?_, ?_⟩
  · have hc := count_storeKeys_dictInsert hnodup1 (normalize_uri url)
      (⟨m2, est m2, compute_hash m2, t2⟩ : MarkdownResource)
    simpa [list_resources, storeKeys, List.count, ← List.countP_eq_length_filter,
      List.countP_map, Function.comp] using hc
  · simp [read_resource, urlparse_scheme_normalize_uri,
      lookupStore_dictInsert_self]

theorem upsert_replaces_entry_witness :
    (storeKeys (fetch_and_store_url (fun s => s.length) (Except.ok "# B") "t2"
        "https://example.com/docs/"
        (fetch_and_store_url (fun s => s.length) (Except.ok "# A") "t1"
          "https://example.com/docs/" []).1).1).count
        (normalize_uri "https://example.com/docs/") = 1 ∧
    lookupStore (fetch_and_store_url (fun s => s.length) (Except.ok "# B") "t2"
        "https://example.com/docs/"
        (fetch_and_store_url (fun s => s.length) (Except.ok "# A") "t1"
          "https://example.com/docs/" []).1).1
        (normalize_uri "https://example.com/docs/") =
      some ⟨"# B", "# B".length, compute_hash "# B", "t2"⟩ ∧
    ((list_resources (fetch_and_store_url (fun s => s.length) (Except.ok "# B") "t2"
        "https://example.com/docs/"
        (fetch_and_store_url (fun s => s.length) (Except.ok "# A") "t1"
          "https://example.com/docs/" []).1).1).filter
        (fun r => r.uri == normalize_uri "https://example.com/docs/")).length = 1 ∧
    read_resource (fetch_and_store_url (fun s => s.length) (Except.ok "# B") "t2"
        "https://example.com/docs/"
        (fetch_and_store_url (fun s => s.length) (Except.ok "# A") "t1"
          "https://example.com/docs/" []).1).1
        (normalize_uri "https://example.com/docs/") =
      Except.ok ("# B" ++
        ("\n\n---\n_Estimated tokens_: " ++ toString "# B".length ++
         "\n_Content hash_: `" ++ (compute_hash "# B").take 12 ++
         "...`\n_Fetched at_: " ++ "t2" ++ " UTC")) :=
  upsert_replaces_entry (fun s => s.length) "https://example.com/docs/"
    "# A" "# B" "t1" "t2" [] List.nodup_nil

/-! ### C5: the stored fingerprint is never stale -/

/-- Every stored entry's `content_hash` is the fingerprint of its stored
markdown. -/
def hashConsistent (store : Store) : Prop :=
  ∀ p ∈ store, p.2.content_hash = compute_hash p.2.markdown

theorem hashConsistent_applyOp (est : String → Nat) {store : Store}
    (h : hashConsistent store) (op : Op) : hashConsistent (applyOp est store op) := by
  cases op with
  | listOp => exact h
  | readOp _ => exact h
  | upsert url fr now =>
      cases fr with
      | error e => exact h
      | ok m =>
          intro p hp
          simp only [applyOp, fetch_and_store_url] at hp
          rcases mem_dictInsert hp with rfl | hp'
          · rfl
          · exact h p hp'

theorem hashConsistent_runOps (est : String → Nat) (ops : List Op)
    {store : Store} (h : hashConsistent store) :
    hashConsistent (runOps est store ops) := by
  induction ops generalizing store with
  | nil => exact h
  | cons op ops ih => exact ih (hashConsistent_applyOp est h op)

/-- C5: in every store state reachable from the empty store by upsert, list
and read operations, every entry's `content_hash` equals the fingerprint of
its currently stored markdown, where the fingerprint is the SHA-256 digest of
the UTF-8 encoding rendered as a 64-character lowercase-hexadecimal string. -/
theorem content_hash_never_stale :
    (∀ (est : String → Nat) (ops : List Op),
      hashConsistent (runOps est [] ops)) ∧
    (∀ s : String, (compute_hash s).length = 64 ∧
      ∀ c ∈ (compute_hash s).data, isLowerHex c = true) :=
  ⟨fun est ops => hashConsistent_runOps est ops (fun p hp => absurd hp (List.not_mem_nil p)),
   fun s => ⟨compute_hash_length s, fun _ hc => isLowerHex_of_mem_compute_hash hc⟩⟩

theorem content_hash_never_stale_witness :
    ("jinamd://example_com_docs",
      ({ markdown := "# Hi", token_count := 4,
         content_hash := compute_hash "# Hi",
         fetched_at := "t0" } : MarkdownResource)).2.content_hash =
      compute_hash ("jinamd://example_com_docs",
        ({ markdown := "# Hi", token_count := 4,
           content_hash := compute_hash "# Hi",
           fetched_at := "t0" } : MarkdownResource)).2.markdown :=
  content_hash_never_stale.1 (fun s => s.length)
    [Op.upsert "https://example.com/docs/" (Except.ok "# Hi") "t0"] _
    (by decide)

/-! ### C6, C7: reads -/

/-- C6: `read_resource` fails with the unsupported-scheme `ValueError`
(`ValidationError`) exactly when the identifier's scheme differs from
`jinamd`, fails with the not-found `ValueError` (`NotFoundError`) exactly when
the scheme matches but no entry is stored under the identifier, and succeeds
otherwise. -/
theorem read_resource_error_taxonomy (store : Store) (uri : String) :
    ((∃ sch, read_resource store uri = Except.error (.unsupportedScheme sch)) ↔
      (urlparse uri).scheme ≠ "jinamd") ∧
    ((∃ u, read_resource store uri = Except.error (.notFound u)) ↔
      ((urlparse uri).scheme = "jinamd" ∧ lookupStore store uri = none)) ∧
    ((∃ s, read_resource store uri = Except.ok s) ↔
      ((urlparse uri).scheme = "jinamd" ∧ ∃ r, lookupStore store uri = some r)) := by
  by_cases h : (urlparse uri).scheme = "jinamd"
  · cases hl : lookupStore store uri <;> simp [read_resource, h, hl]
  · simp [read_resource, h]

/-- C7: a successful read returns exactly the stored content followed by the
deterministic footer (size estimate, first 12 fingerprint characters, fetch
timestamp), and reading leaves the store — every field of every entry —
unchanged. -/
theorem read_resource_appends_footer (est : String → Nat) (store : Store)
    (uri : String) (res : MarkdownResource)
    (hscheme : (urlparse uri).scheme = "jinamd")
    (hfound : lookupStore store uri = some res) :
    read_resource store uri =
      Except.ok (res.markdown ++
        ("\n\n---\n_Estimated tokens_: " ++ toString res.token_count ++
         "\n_Content hash_: `" ++ res.content_hash.take 12 ++
         "...`\n_Fetched at_: " ++ res.fetched_at ++ " UTC")) ∧
    applyOp est store (Op.readOp uri) = store :=
  ⟨by simp [read_resource, hscheme, hfound], rfl⟩

theorem read_resource_appends_footer_witness :
    read_resource [("jinamd://example_com_docs",
        ⟨"# Hi", 4, "0123456789abcdef", "t0"⟩)] "jinamd://example_com_docs" =
      Except.ok ("# Hi" ++
        ("\n\n---\n_Estimated tokens_: " ++ toString 4 ++
         "\n_Content hash_: `" ++ ("0123456789abcdef" : String).take 12 ++
         "...`\n_Fetched at_: " ++ "t0" ++ " UTC")) ∧
    applyOp (fun s => s.length) [("jinamd://example_com_docs",
        ⟨"# Hi", 4, "0123456789abcdef", "t0"⟩)]
      (Op.readOp "jinamd://example_com_docs") =
      [("jinamd://example_com_docs", ⟨"# Hi", 4, "0123456789abcdef", "t0"⟩)] :=
  read_resource_appends_footer (fun s => s.length)
    [("jinamd://example_com_docs", ⟨"# Hi", 4, "0123456789abcdef", "t0"⟩)]
    "jinamd://example_com_docs" ⟨"# Hi", 4, "0123456789abcdef", "t0"⟩
    (by decide) (by decide)

/-! ### C10: tool-invocation guards -/

/-- C10: `call_tool` fails with a `ValueError` before performing any fetch or
store mutation whenever the arguments mapping is missing or empty or the tool
name is not `fetch_markdown`: the store is returned unchanged and the result
does not depend on the validator or on the fetch outcome. -/
theorem call_tool_guard_errors (est : String → Nat) (now name : String)
    (args : Option ArgDict) (store : Store)
    (h : args = none ∨ args = some [] ∨ name ≠ "fetch_markdown") :
    ∀ (validate validate' : ArgDict → Except ToolError String)
      (fr fr' : Except FetchError String),
      (call_tool est validate fr now name args store).1 = store ∧
      (∃ msg, (call_tool est validate fr now name args store).2 =
        Except.error (.valueError msg)) ∧
      call_tool est validate fr now name args store =
        call_tool est validate' fr' now name args store := by
  intro validate validate' fr fr'
  rcases h with rfl | rfl | hname
  · exact ⟨rfl, ⟨"Missing arguments", rfl⟩, rfl⟩
  · exact ⟨rfl, ⟨"Missing arguments", rfl⟩, rfl⟩
  · cases args with
    | none => exact ⟨rfl, ⟨"Missing arguments", rfl⟩, rfl⟩
    | some l =>
        cases l with
        | nil => exact ⟨rfl, ⟨"Missing arguments", rfl⟩, rfl⟩
        | cons a as =>
            refine ⟨?_, ⟨"Unknown tool: " ++ name, ?_⟩, ?_⟩ <;>
              simp [call_tool, hname]

theorem call_tool_guard_errors_witness :
    ((call_tool (fun s => s.length) (fun _ => Except.error ToolError.validationError)
        (Except.error FetchError.timeout) "t0" "fetch_markdown" none []).1 = [] ∧
      (∃ msg, (call_tool (fun s => s.length)
          (fun _ => Except.error ToolError.validationError)
          (Except.error FetchError.timeout) "t0" "fetch_markdown" none []).2 =
        Except.error (.valueError msg)) ∧
      call_tool (fun s => s.length) (fun _ => Except.error ToolError.validationError)
          (Except.error FetchError.timeout) "t0" "fetch_markdown" none [] =
        call_tool (fun s => s.length) (fun _ => Except.ok "https://example.com")
          (Except.ok "# Hi") "t0" "fetch_markdown" none []) :=
  call_tool_guard_errors (fun s => s.length) "t0" "fetch_markdown" none []
    (Or.inl rfl) _ _ _ _

end JinaMCP
